import Mathlib

/-!
Verification of the sandboxed arithmetic-expression evaluator of this repository
(`src/openai_app/tools/calculator.py`: `SafeMathEvaluator` and `CalculatorTool`).

The evaluator parses a text string with Python's `ast.parse(text.strip(), mode='eval')`
and walks the resulting tree in `SafeMathEvaluator._eval`, consulting two whitelist
tables (`SafeMathEvaluator.operators` and `SafeMathEvaluator.functions`).
`SafeMathEvaluator.evaluate` wraps every raised exception into
`ValueError("Invalid expression: ...")`, and `CalculatorTool.execute` catches
everything and returns a result string.

Modelling conventions (shallow embedding):

* Python `float` values are idealised as real numbers (`ℝ`); IEEE-754 rounding,
  overflow to infinity, and NaN are outside the model.  Python `int` is `ℤ`.
* Decimal literals in the source text are read exactly (as rationals) instead of
  being rounded to the nearest IEEE double.
* Exceptions are values: each raising site of the source is a constructor of `Err`,
  and each `try/except` boundary of the source is an explicit `match`.
* Python's parser (`ast.parse`, which is outside this repository) is modelled by
  `parse`, a faithful fragment of Python's expression grammar covering the token
  and node kinds the claims exercise: numbers, single-quoted strings,
  `True`/`False`/`None`, identifiers, the arithmetic operators `+ - * / // % **`,
  the bitwise operators `| ^ & << >>` and unary `~` (which Python parses but the
  whitelist rejects), unary `+`/`-`, calls, attribute access `a.b` (an `ast`
  node kind outside the evaluator's supported set), parentheses, list and tuple
  displays.  AST node kinds outside the evaluator's supported set are collapsed
  into the constructor `Expr.other kind children`, which is exactly how
  `_eval`'s default-deny branch treats them (it only reads the type name).
* Corners of Python semantics that no whitelisted expression path and no claim
  depends on are marked where they are simplified (string `%`-formatting,
  arithmetic on complex results, list/list comparison).
-/

namespace Calculator

open Classical

/-- A single-quote character as a string (used by Python-style messages). -/
def sq : String := String.singleton (Char.ofNat 39)

/-- Constant literals as they appear in a parsed tree (`ast.Constant`).
Python parses numbers, quoted strings, `True`, `False` and `None` to constants. -/
inductive Lit where
  | intL (z : ℤ)
  | floatL (q : ℚ)
  | strL (s : String)
  | boolL (b : Bool)
  | noneL
  deriving DecidableEq

/-- Binary operator tags of `ast.BinOp` nodes that Python's expression grammar
can produce.  Only the first seven are in `SafeMathEvaluator.operators`. -/
inductive BOp where
  | add | sub | mult | div | pow | mod | floorDiv
  | bitOr | bitXor | bitAnd | lshift | rshift
  deriving DecidableEq

/-- The Python AST class name of a binary operator tag (`type(node.op).__name__`). -/
def BOp.pyName : BOp → String
  | .add => "Add" | .sub => "Sub" | .mult => "Mult" | .div => "Div"
  | .pow => "Pow" | .mod => "Mod" | .floorDiv => "FloorDiv"
  | .bitOr => "BitOr" | .bitXor => "BitXor" | .bitAnd => "BitAnd"
  | .lshift => "LShift" | .rshift => "RShift"

/-- Unary operator tags of `ast.UnaryOp`.  Only `USub`/`UAdd` are whitelisted. -/
inductive UOp where
  | usub | uadd | invert
  deriving DecidableEq

/-- The Python AST class name of a unary operator tag. -/
def UOp.pyName : UOp → String
  | .usub => "USub" | .uadd => "UAdd" | .invert => "Invert"

/-- Expression trees, mirroring the `ast` node kinds that `SafeMathEvaluator._eval`
distinguishes: `Constant`, `Name`, `BinOp`, `UnaryOp`, `Call`, `List`, `Tuple`,
and a default bucket `other` for every other node kind (the evaluator's
default-deny branch only reads the node's class name, so unsupported kinds are
collapsed to their class name plus their child expressions). -/
inductive Expr where
  | const (l : Lit)
  | name (id : String)
  | binop (op : BOp) (left right : Expr)
  | unop (op : UOp) (operand : Expr)
  | call (func : Expr) (args : List Expr)
  | listLit (elts : List Expr)
  | tupleLit (elts : List Expr)
  | other (kind : String) (children : List Expr)

/-- The callables of the `SafeMathEvaluator.functions` whitelist
(the two entries `pi` and `e` are constants, not callables). -/
inductive Builtin where
  | abs | round | min | max | sum | sqrt | sin | cos | tan
  | log | log10 | exp | ceil | floor
  deriving DecidableEq

/-- Python-level name of a whitelisted callable. -/
def Builtin.pyName : Builtin → String
  | .abs => "abs" | .round => "round" | .min => "min" | .max => "max"
  | .sum => "sum" | .sqrt => "sqrt" | .sin => "sin" | .cos => "cos"
  | .tan => "tan" | .log => "log" | .log10 => "log10" | .exp => "exp"
  | .ceil => "ceil" | .floor => "floor"

/-- Runtime values of the evaluator.  `_eval` is untyped Python, so a value can
be an int, a float, a string, a bool, `None`, a complex number (from `**` with a
negative base and fractional exponent), a list, a tuple, or one of the
whitelisted callables. -/
inductive Value where
  | int (z : ℤ)
  | float (r : ℝ)
  | str (s : String)
  | bool (b : Bool)
  | none
  | complex (re im : ℝ)
  | list (elts : List Value)
  | tuple (elts : List Value)
  | builtin (f : Builtin)

/-- Python type name of a value (used in Python's error messages). -/
def Value.typeName : Value → String
  | .int _ => "int" | .float _ => "float" | .str _ => "str"
  | .bool _ => "bool" | .none => "NoneType" | .complex _ _ => "complex"
  | .list _ => "list" | .tuple _ => "tuple"
  | .builtin _ => "builtin_function_or_method"

/-- Error kinds.  In the source every raising site raises `ValueError` (or lets a
built-in exception propagate); `SafeMathEvaluator.evaluate` then wraps the
message.  The constructors record which raising site produced the error, which
is the error taxonomy of the specification; `errMessage` below recovers the
`str(e)` seen by the wrapper.  `recursionLimit` is an artifact of the fuel
encoding of recursion and is unreachable from `eval` (the fuel always exceeds
the tree size); it loosely corresponds to the host interpreter's
`RecursionError`. -/
inductive Err where
  | syntaxError (msg : String)
  | unknownIdentifier (id : String)
  | unsupportedOperator (opName : String)
  | unsupportedUnaryOperator (opName : String)
  | notCallable (funcStr : String)
  | unsupportedConstruct (kind : String)
  | divisionByZero (msg : String)
  | arityOrDomain (msg : String)
  | typeError (msg : String)
  | recursionLimit
  deriving DecidableEq

/-- The message `str(e)` of the underlying Python exception, as seen by
`SafeMathEvaluator.evaluate`'s `except` clause. -/
def errMessage : Err → String
  | .syntaxError m => m
  | .unknownIdentifier id => "Unknown variable: " ++ id
  | .unsupportedOperator op => "Unsupported operator: " ++ op
  | .unsupportedUnaryOperator op => "Unsupported unary operator: " ++ op
  | .notCallable f => "Not a function: " ++ f
  | .unsupportedConstruct k => "Unsupported node type: " ++ k
  | .divisionByZero m => m
  | .arityOrDomain m => m
  | .typeError m => m
  | .recursionLimit => "maximum recursion depth exceeded"

/-- A Python number: an int or a float.  Bools coerce to ints (Python's `bool`
is a subclass of `int`). -/
inductive PyNum where
  | i (z : ℤ)
  | f (r : ℝ)

/-- The real number denoted by a Python number. -/
def PyNum.toR : PyNum → ℝ
  | .i z => (z : ℝ)
  | .f r => r

/-- Numeric view of a value: ints and floats are numbers, and `True`/`False`
behave as the ints `1`/`0` in Python arithmetic.  Everything else (including
complex, whose arithmetic is outside this model) has no numeric view here. -/
def toNum? : Value → Option PyNum
  | .int z => some (.i z)
  | .float r => some (.f r)
  | .bool b => some (.i (cond b 1 0))
  | _ => Option.none

/-- Integer view of a value, for sequence repetition (`'ab' * 3`). -/
def asInt? : Value → Option ℤ
  | .int z => some z
  | .bool b => some (cond b 1 0)
  | _ => Option.none

/-- Surround a type name with single quotes, Python-message style. -/
def qn (s : String) : String := sq ++ s ++ sq

/-- Python's `unsupported operand type(s)` message for a binary operator. -/
def binTypeMsg (op : String) (a b : Value) : String :=
  "unsupported operand type(s) for " ++ op ++ ": " ++ qn a.typeName ++ " and " ++ qn b.typeName

/-- `r` is an integral real (`float.is_integer` in Python). -/
def IsWholeR (r : ℝ) : Prop := ((⌊r⌋ : ℤ) : ℝ) = r

/-- Sum of two Python numbers: int+int stays int, otherwise float. -/
def numAdd : PyNum → PyNum → Value
  | .i a, .i b => .int (a + b)
  | x, y => .float (x.toR + y.toR)

/-- Difference of two Python numbers. -/
def numSub : PyNum → PyNum → Value
  | .i a, .i b => .int (a - b)
  | x, y => .float (x.toR - y.toR)

/-- Product of two Python numbers. -/
def numMul : PyNum → PyNum → Value
  | .i a, .i b => .int (a * b)
  | x, y => .float (x.toR * y.toR)

/-- Repeat a string `k` times (`operator.mul` on `str` and `int`). -/
def strRepeat (s : String) (k : ℤ) : String :=
  String.join (List.replicate k.toNat s)

/-- Repeat a list `k` times. -/
def listRepeat {α : Type} (l : List α) (k : ℤ) : List α :=
  (List.replicate k.toNat l).flatten

/-- `operator.add`: numeric addition with int/float promotion, string and
list/tuple concatenation; anything else is a `TypeError`. -/
def pyAdd : Value → Value → Except Err Value
  | .int a, .int b => .ok (.int (a + b))
  | .str a, .str b => .ok (.str (a ++ b))
  | .list a, .list b => .ok (.list (a ++ b))
  | .tuple a, .tuple b => .ok (.tuple (a ++ b))
  | a, b =>
    match toNum? a, toNum? b with
    | some x, some y => .ok (numAdd x y)
    | _, _ => .error (.typeError (binTypeMsg "+" a b))

/-- `operator.sub`: numeric only. -/
def pySub : Value → Value → Except Err Value
  | a, b =>
    match toNum? a, toNum? b with
    | some x, some y => .ok (numSub x y)
    | _, _ => .error (.typeError (binTypeMsg "-" a b))

/-- Python's message for multiplying a sequence by a non-int. -/
def seqMulMsg (b : Value) : String :=
  "can" ++ sq ++ "t multiply sequence by non-int of type " ++ qn b.typeName

/-- `operator.mul`: numeric multiplication, or sequence repetition when one
operand is a string/list/tuple and the other an int/bool. -/
def pyMul : Value → Value → Except Err Value
  | .str s, b =>
    match asInt? b with
    | some k => .ok (.str (strRepeat s k))
    | Option.none => .error (.typeError (seqMulMsg b))
  | a, .str s =>
    match asInt? a with
    | some k => .ok (.str (strRepeat s k))
    | Option.none => .error (.typeError (seqMulMsg a))
  | .list l, b =>
    match asInt? b with
    | some k => .ok (.list (listRepeat l k))
    | Option.none => .error (.typeError (seqMulMsg b))
  | a, .list l =>
    match asInt? a with
    | some k => .ok (.list (listRepeat l k))
    | Option.none => .error (.typeError (seqMulMsg a))
  | .tuple l, b =>
    match asInt? b with
    | some k => .ok (.tuple (listRepeat l k))
    | Option.none => .error (.typeError (seqMulMsg b))
  | a, .tuple l =>
    match asInt? a with
    | some k => .ok (.tuple (listRepeat l k))
    | Option.none => .error (.typeError (seqMulMsg a))
  | a, b =>
    match toNum? a, toNum? b with
    | some x, some y => .ok (numMul x y)
    | _, _ => .error (.typeError (binTypeMsg "*" a b))

/-- `operator.truediv`: always produces a float; division by zero raises
`ZeroDivisionError` (it never produces infinity or NaN). -/
noncomputable def pyDiv : Value → Value → Except Err Value
  | a, b =>
    match toNum? a, toNum? b with
    | some (.i x), some (.i y) =>
      if y = 0 then .error (.divisionByZero "division by zero")
      else .ok (.float ((x : ℝ) / (y : ℝ)))
    | some x, some y =>
      if y.toR = 0 then .error (.divisionByZero "float division by zero")
      else .ok (.float (x.toR / y.toR))
    | _, _ => .error (.typeError (binTypeMsg "/" a b))

/-- `operator.mod`: Python's floored modulo (the result has the divisor's sign);
modulo by zero raises `ZeroDivisionError`.  Python's printf-style string
formatting (`'%s' % x`) is outside this model: no whitelisted-arithmetic path
and no claim depends on it, and it is mapped to `TypeError` here. -/
noncomputable def pyMod : Value → Value → Except Err Value
  | a, b =>
    match toNum? a, toNum? b with
    | some (.i x), some (.i y) =>
      if y = 0 then .error (.divisionByZero "integer division or modulo by zero")
      else .ok (.int (Int.fmod x y))
    | some x, some y =>
      if y.toR = 0 then .error (.divisionByZero "float modulo")
      else .ok (.float (x.toR - y.toR * (⌊x.toR / y.toR⌋ : ℤ)))
    | _, _ => .error (.typeError (binTypeMsg "%" a b))

/-- `operator.floordiv`: floored division; by zero raises `ZeroDivisionError`. -/
noncomputable def pyFloorDiv : Value → Value → Except Err Value
  | a, b =>
    match toNum? a, toNum? b with
    | some (.i x), some (.i y) =>
      if y = 0 then .error (.divisionByZero "integer division or modulo by zero")
      else .ok (.int (Int.fdiv x y))
    | some x, some y =>
      if y.toR = 0 then .error (.divisionByZero "float floor division by zero")
      else .ok (.float ((⌊x.toR / y.toR⌋ : ℤ) : ℝ))
    | _, _ => .error (.typeError (binTypeMsg "//" a b))

/-- Message of Python's `0 ** negative` error. -/
def zeroNegPowMsg : String := "0.0 cannot be raised to a negative power"

/-- Float `**`: `0.0` to a negative power raises `ZeroDivisionError`; a negative
base with an integral exponent uses the real power; a negative base with a
fractional exponent returns a complex number (principal branch), as Python does. -/
noncomputable def floatPow (x y : ℝ) : Except Err Value :=
  if x = 0 ∧ y < 0 then .error (.divisionByZero zeroNegPowMsg)
  else if 0 ≤ x then .ok (.float (Real.rpow x y))
  else if IsWholeR y then .ok (.float (x ^ (⌊y⌋ : ℤ)))
  else .ok (.complex (Real.rpow (-x) y * Real.cos (Real.pi * y))
                     (Real.rpow (-x) y * Real.sin (Real.pi * y)))

/-- `operator.pow`: int**int with a non-negative exponent stays int; a negative
exponent gives a float (or `ZeroDivisionError` for base 0); float cases follow
`floatPow`. -/
noncomputable def pyPow : Value → Value → Except Err Value
  | a, b =>
    match toNum? a, toNum? b with
    | some (.i x), some (.i y) =>
      if 0 ≤ y then .ok (.int (x ^ y.toNat))
      else if x = 0 then .error (.divisionByZero zeroNegPowMsg)
      else .ok (.float ((x : ℝ) ^ y))
    | some x, some y => floatPow x.toR y.toR
    | _, _ => .error (.typeError (binTypeMsg "** or pow()" a b))

/-- `operator.neg`: numeric negation (bools become ints). -/
def pyNeg : Value → Except Err Value
  | v =>
    match toNum? v with
    | some (.i z) => .ok (.int (-z))
    | some (.f r) => .ok (.float (-r))
    | Option.none => .error (.typeError ("bad operand type for unary -: " ++ qn v.typeName))

/-- `operator.pos`: numeric identity (bools become ints). -/
def pyPos : Value → Except Err Value
  | v =>
    match toNum? v with
    | some (.i z) => .ok (.int z)
    | some (.f r) => .ok (.float r)
    | Option.none => .error (.typeError ("bad operand type for unary +: " ++ qn v.typeName))

/-- Python's message for an unsupported `<` comparison. -/
def cmpMsg (a b : Value) : String :=
  qn "<" ++ " not supported between instances of " ++ qn a.typeName ++ " and " ++ qn b.typeName

/-- Python's `<` on the value kinds this model compares: numbers (with int/float
promotion) and strings.  List/list lexicographic comparison is outside the model
(no claim depends on it) and is mapped to `TypeError`. -/
noncomputable def pyLtB : Value → Value → Except Err Bool
  | .str a, .str b => .ok (decide (a < b))
  | a, b =>
    match toNum? a, toNum? b with
    | some (.i x), some (.i y) => .ok (decide (x < y))
    | some x, some y => .ok (if x.toR < y.toR then true else false)
    | _, _ => .error (.typeError (cmpMsg a b))


/-- Digit character for a digit value below ten. -/
def dChar (d : ℕ) : Char := Char.ofNat (48 + d)

/-- Little-endian base-10 digits with explicit fuel (so that concrete digit
strings reduce in the kernel); `natDigits` below always supplies enough fuel,
and the lemma `natDigits_eq_digits` identifies it with `Nat.digits 10`. -/
def natDigitsF : Nat → Nat → List ℕ
  | 0, _ => []
  | _ + 1, 0 => []
  | f + 1, n + 1 => (n + 1) % 10 :: natDigitsF f ((n + 1) / 10)

/-- Little-endian base-10 digits of a natural number. -/
def natDigits (n : ℕ) : List ℕ := natDigitsF n n

/-- Decimal string of a natural number (model of Python's `str` on `int`). -/
def natStr (n : ℕ) : String :=
  if n = 0 then "0" else String.mk ((natDigits n).reverse.map dChar)

/-- Decimal string of an integer. -/
def intStr (z : ℤ) : String := (if z < 0 then "-" else "") ++ natStr z.natAbs

/-- Round-half-to-even on the reals (IEEE/Python `round` tie-breaking). -/
noncomputable def roundEven (r : ℝ) : ℤ :=
  if r - (⌊r⌋ : ℝ) < 1 / 2 then ⌊r⌋
  else if 1 / 2 < r - (⌊r⌋ : ℝ) then ⌊r⌋ + 1
  else if Even ⌊r⌋ then ⌊r⌋ else ⌊r⌋ + 1

/-- Python's `object is not iterable` message. -/
def notIterableMsg (v : Value) : String := qn v.typeName ++ " object is not iterable"

/-- Fold of Python `max` over the remaining items (`if x > cur: cur = x`). -/
noncomputable def pyMaxFold : Value → List Value → Except Err Value
  | cur, [] => .ok cur
  | cur, x :: xs =>
    match pyLtB cur x with
    | .error e => .error e
    | .ok true => pyMaxFold x xs
    | .ok false => pyMaxFold cur xs

/-- Fold of Python `min` over the remaining items (`if x < cur: cur = x`). -/
noncomputable def pyMinFold : Value → List Value → Except Err Value
  | cur, [] => .ok cur
  | cur, x :: xs =>
    match pyLtB x cur with
    | .error e => .error e
    | .ok true => pyMinFold x xs
    | .ok false => pyMinFold cur xs

/-- Builtin `max`: one iterable argument or several plain arguments.
Function-application failures are `arityOrDomain` (the specification's
`ArityOrDomainError` covers wrong count, domain and type mismatches). -/
noncomputable def pyMax : List Value → Except Err Value
  | [] => .error (.arityOrDomain "max expected at least 1 argument, got 0")
  | [.list []] => .error (.arityOrDomain "max() arg is an empty sequence")
  | [.list (v :: vs)] => pyMaxFold v vs
  | [.tuple []] => .error (.arityOrDomain "max() arg is an empty sequence")
  | [.tuple (v :: vs)] => pyMaxFold v vs
  | [v] => .error (.arityOrDomain (notIterableMsg v))
  | v :: vs => pyMaxFold v vs

/-- Builtin `min`, symmetric to `pyMax`. -/
noncomputable def pyMin : List Value → Except Err Value
  | [] => .error (.arityOrDomain "min expected at least 1 argument, got 0")
  | [.list []] => .error (.arityOrDomain "min() arg is an empty sequence")
  | [.list (v :: vs)] => pyMinFold v vs
  | [.tuple []] => .error (.arityOrDomain "min() arg is an empty sequence")
  | [.tuple (v :: vs)] => pyMinFold v vs
  | [v] => .error (.arityOrDomain (notIterableMsg v))
  | v :: vs => pyMinFold v vs

/-- Fold of Python `sum` with `operator.add`. -/
noncomputable def pySumFold : Value → List Value → Except Err Value
  | acc, [] => .ok acc
  | acc, x :: xs =>
    match pyAdd acc x with
    | .error e => .error e
    | .ok a => pySumFold a xs

/-- Builtin `sum`: sums a list/tuple (optionally from a start value),
starting from the int `0` by default. -/
noncomputable def pySum : List Value → Except Err Value
  | [.list vs] => pySumFold (.int 0) vs
  | [.tuple vs] => pySumFold (.int 0) vs
  | [v] => .error (.arityOrDomain (notIterableMsg v))
  | [.list vs, start] => pySumFold start vs
  | [.tuple vs, start] => pySumFold start vs
  | [] => .error (.arityOrDomain "sum() takes at least 1 positional argument (0 given)")
  | _ => .error (.arityOrDomain "sum() takes at most 2 arguments")

/-- Builtin `abs`: ints, floats, bools and complex (modulus). -/
noncomputable def pyAbs : List Value → Except Err Value
  | [.complex re im] => .ok (.float (Real.sqrt (re ^ 2 + im ^ 2)))
  | [v] =>
    match toNum? v with
    | some (.i z) => .ok (.int |z|)
    | some (.f r) => .ok (.float |r|)
    | Option.none => .error (.arityOrDomain ("bad operand type for abs(): " ++ qn v.typeName))
  | vs => .error (.arityOrDomain ("abs() takes exactly one argument (" ++ natStr vs.length ++ " given)"))

/-- Builtin `round`: one argument gives an int (half-to-even); with `ndigits`
the result keeps the input's int/float kind. -/
noncomputable def pyRound : List Value → Except Err Value
  | [v] =>
    match toNum? v with
    | some (.i z) => .ok (.int z)
    | some (.f r) => .ok (.int (roundEven r))
    | Option.none =>
      .error (.arityOrDomain ("type " ++ qn v.typeName ++ " doesn" ++ sq ++ "t define __round__ method"))
  | [v, nd] =>
    match toNum? v, asInt? nd with
    | some (.i z), some n =>
      if 0 ≤ n then .ok (.int z)
      else .ok (.int (roundEven ((z : ℝ) / (10 : ℝ) ^ (-n).toNat) * (10 : ℤ) ^ (-n).toNat))
    | some (.f r), some n =>
      .ok (.float ((roundEven (r * (10 : ℝ) ^ (n : ℤ)) : ℤ) / (10 : ℝ) ^ (n : ℤ)))
    | some _, Option.none =>
      .error (.arityOrDomain (qn nd.typeName ++ " object cannot be interpreted as an integer"))
    | Option.none, _ =>
      .error (.arityOrDomain ("type " ++ qn v.typeName ++ " doesn" ++ sq ++ "t define __round__ method"))
  | _ => .error (.arityOrDomain "round() takes at most 2 arguments")

/-- Arity message of the 1-argument `math` functions. -/
def mathArity1 (fname : String) (k : ℕ) : String :=
  "math." ++ fname ++ "() takes exactly one argument (" ++ natStr k ++ " given)"

/-- Python's `math` argument type message. -/
def mustBeReal (v : Value) : String := "must be real number, not " ++ v.typeName

/-- `math.sqrt`: negative input is a `math domain error`. -/
noncomputable def pySqrt : List Value → Except Err Value
  | [v] =>
    match toNum? v with
    | some x =>
      if x.toR < 0 then .error (.arityOrDomain "math domain error")
      else .ok (.float (Real.sqrt x.toR))
    | Option.none => .error (.arityOrDomain (mustBeReal v))
  | vs => .error (.arityOrDomain (mathArity1 "sqrt" vs.length))

/-- A total 1-argument `math` function (`sin`, `cos`, `tan`, `exp`). -/
noncomputable def pyMath1 (fname : String) (g : ℝ → ℝ) : List Value → Except Err Value
  | [v] =>
    match toNum? v with
    | some x => .ok (.float (g x.toR))
    | Option.none => .error (.arityOrDomain (mustBeReal v))
  | vs => .error (.arityOrDomain (mathArity1 fname vs.length))

/-- `math.log`: domain error on non-positive input; the 2-argument form divides
logarithms, and base 1 makes that division raise `ZeroDivisionError`. -/
noncomputable def pyLog : List Value → Except Err Value
  | [v] =>
    match toNum? v with
    | some x =>
      if x.toR ≤ 0 then .error (.arityOrDomain "math domain error")
      else .ok (.float (Real.log x.toR))
    | Option.none => .error (.arityOrDomain (mustBeReal v))
  | [v, b] =>
    match toNum? v, toNum? b with
    | some x, some y =>
      if x.toR ≤ 0 ∨ y.toR ≤ 0 then .error (.arityOrDomain "math domain error")
      else if y.toR = 1 then .error (.divisionByZero "float division by zero")
      else .ok (.float (Real.log x.toR / Real.log y.toR))
    | _, _ => .error (.arityOrDomain (mustBeReal v))
  | vs => .error (.arityOrDomain ("math.log() takes from 1 to 2 arguments (" ++ natStr vs.length ++ " given)"))

/-- `math.log10`. -/
noncomputable def pyLog10 : List Value → Except Err Value
  | [v] =>
    match toNum? v with
    | some x =>
      if x.toR ≤ 0 then .error (.arityOrDomain "math domain error")
      else .ok (.float (Real.log x.toR / Real.log 10))
    | Option.none => .error (.arityOrDomain (mustBeReal v))
  | vs => .error (.arityOrDomain (mathArity1 "log10" vs.length))

/-- `math.ceil`: returns an int. -/
noncomputable def pyCeil : List Value → Except Err Value
  | [v] =>
    match toNum? v with
    | some (.i z) => .ok (.int z)
    | some (.f r) => .ok (.int ⌈r⌉)
    | Option.none => .error (.arityOrDomain (mustBeReal v))
  | vs => .error (.arityOrDomain (mathArity1 "ceil" vs.length))

/-- `math.floor`: returns an int. -/
noncomputable def pyFloor : List Value → Except Err Value
  | [v] =>
    match toNum? v with
    | some (.i z) => .ok (.int z)
    | some (.f r) => .ok (.int ⌊r⌋)
    | Option.none => .error (.arityOrDomain (mustBeReal v))
  | vs => .error (.arityOrDomain (mathArity1 "floor" vs.length))

/-- Apply a whitelisted callable to its evaluated argument list
(the `func(*args)` step of `_eval`'s `Call` branch). -/
noncomputable def applyBuiltin : Builtin → List Value → Except Err Value
  | .abs, vs => pyAbs vs
  | .round, vs => pyRound vs
  | .min, vs => pyMin vs
  | .max, vs => pyMax vs
  | .sum, vs => pySum vs
  | .sqrt, vs => pySqrt vs
  | .sin, vs => pyMath1 "sin" Real.sin vs
  | .cos, vs => pyMath1 "cos" Real.cos vs
  | .tan, vs => pyMath1 "tan" Real.tan vs
  | .log, vs => pyLog vs
  | .log10, vs => pyLog10 vs
  | .exp, vs => pyMath1 "exp" Real.exp vs
  | .ceil, vs => pyCeil vs
  | .floor, vs => pyFloor vs

/-- The `SafeMathEvaluator.functions` whitelist: a closed mapping from
identifier names to callables or numeric constants (`pi`, `e`).  Any name not
listed here maps to `Option.none` — there is no other way to resolve a name. -/
noncomputable def functions : String → Option Value
  | "abs" => some (.builtin .abs)
  | "round" => some (.builtin .round)
  | "min" => some (.builtin .min)
  | "max" => some (.builtin .max)
  | "sum" => some (.builtin .sum)
  | "sqrt" => some (.builtin .sqrt)
  | "sin" => some (.builtin .sin)
  | "cos" => some (.builtin .cos)
  | "tan" => some (.builtin .tan)
  | "log" => some (.builtin .log)
  | "log10" => some (.builtin .log10)
  | "exp" => some (.builtin .exp)
  | "ceil" => some (.builtin .ceil)
  | "floor" => some (.builtin .floor)
  | "pi" => some (.float Real.pi)
  | "e" => some (.float (Real.exp 1))
  | _ => Option.none

/-- The binary half of the `SafeMathEvaluator.operators` table: the source keeps
one dict keyed by `ast` operator class; a `BinOp` node can only look up binary
tags in it, so the dict splits into this table and `unaryOperators`. -/
noncomputable def operators : BOp → Option (Value → Value → Except Err Value)
  | .add => some pyAdd
  | .sub => some pySub
  | .mult => some pyMul
  | .div => some pyDiv
  | .pow => some pyPow
  | .mod => some pyMod
  | .floorDiv => some pyFloorDiv
  | _ => Option.none

/-- The unary half of the `SafeMathEvaluator.operators` table. -/
def unaryOperators : UOp → Option (Value → Except Err Value)
  | .usub => some pyNeg
  | .uadd => some pyPos
  | .invert => Option.none

/-- Python's `callable`: among the evaluator's values, exactly the whitelisted
builtins are callable. -/
def callableV : Value → Bool
  | .builtin _ => true
  | _ => false

/-- The value of a parsed constant (`ast.Constant.value`), returned verbatim by
`_eval`.  Float literals denote their exact decimal value in this model. -/
noncomputable def litValue : Lit → Value
  | .intL z => .int z
  | .floatL q => .float (q : ℝ)
  | .strL s => .str s
  | .boolL b => .bool b
  | .noneL => .none


/-- Big-endian digit list to string. -/
def digitsStrBE (ds : List ℕ) : String := String.mk (ds.map dChar)

/-- A run of zero characters. -/
def zerosStr (k : ℕ) : String := String.mk (List.replicate k (dChar 0))

/-- Comma-and-space separated concatenation (Python container rendering). -/
def commaSep : List String → String
  | [] => ""
  | [s] => s
  | s :: ss => s ++ ", " ++ commaSep ss

/-- Decimal exponent of a nonzero real: the unique `e` with
`10 ^ e ≤ |r| < 10 ^ (e + 1)`. -/
noncomputable def sigExp (r : ℝ) : ℤ := Int.log 10 |r|

/-- The 10-significant-digit mantissa of `r` before normalisation: `|r|` scaled
into `[10 ^ 9, 10 ^ 10]` and rounded half-to-even, as C's `%.10g` does. -/
noncomputable def mant0 (r : ℝ) : ℤ := roundEven (|r| * (10 : ℝ) ^ ((9 : ℤ) - sigExp r))

/-- Normalised mantissa/exponent pair: rounding can carry the mantissa up to
`10 ^ 10`, in which case it becomes `10 ^ 9` and the exponent grows by one. -/
noncomputable def mantExp (r : ℝ) : ℤ × ℤ :=
  if mant0 r = 10 ^ 10 then ((10 : ℤ) ^ 9, sigExp r + 1) else (mant0 r, sigExp r)

/-- Little-endian significant digits of the `%.10g` rendering of `r`, with the
trailing decimal zeros stripped (`%g` strips trailing zeros). -/
noncomputable def sig10Digits (r : ℝ) : List ℕ :=
  (natDigits (mantExp r).1.toNat).dropWhile (· = 0)

/-- Model of the C/Python format `"%.10g"` on a real number: up to 10
significant digits, trailing zeros stripped, fixed-point notation when the
decimal exponent is in `[-4, 10)` and scientific notation otherwise. -/
noncomputable def sig10 (r : ℝ) : String :=
  let e := (mantExp r).2
  let D := (sig10Digits r).reverse
  let L : ℤ := (D.length : ℤ)
  let body :=
    if -4 ≤ e ∧ e < 10 then
      if L ≤ e + 1 then digitsStrBE D ++ zerosStr (e + 1 - L).toNat
      else if 0 ≤ e then
        digitsStrBE (D.take (e + 1).toNat) ++ "." ++ digitsStrBE (D.drop (e + 1).toNat)
      else "0." ++ zerosStr (-(e + 1)).toNat ++ digitsStrBE D
    else
      digitsStrBE (D.take 1) ++
        (if 1 < L then "." ++ digitsStrBE (D.drop 1) else "") ++
        "e" ++ (if e < 0 then "-" else "+") ++
        (if |e| < 10 then "0" else "") ++ natStr |e|.toNat
  (if r < 0 then "-" else "") ++ body

/-- The float branch of `CalculatorTool.execute`'s result formatting:
`str(int(result))` when `result.is_integer()`, else `f"..."` with `%.10g`. -/
noncomputable def formatFloat (r : ℝ) : String :=
  if IsWholeR r then intStr ⌊r⌋ else sig10 r

/-- Python `repr` of a float, approximated: Python uses the shortest
round-tripping decimal (up to 17 digits); this model reuses the 10-digit
rendering.  Only message text and container rendering see this; no claim does. -/
noncomputable def pyFloatStr (r : ℝ) : String :=
  if IsWholeR r then intStr ⌊r⌋ ++ ".0" else sig10 r

/-- Rendering of a complex value, approximating Python's `complex.__repr__`. -/
noncomputable def complexStr (re im : ℝ) : String :=
  "(" ++ pyFloatStr re ++ "+" ++ pyFloatStr im ++ "j)"

/-- Python `repr` over values, with fuel for the nested containers (the fuel is
an encoding artifact; `pyRepr` always supplies enough). -/
noncomputable def pyReprF : Nat → Value → String
  | 0, _ => ""
  | n + 1, v =>
    match v with
    | .int z => intStr z
    | .float r => pyFloatStr r
    | .str s => sq ++ s ++ sq
    | .bool b => if b then "True" else "False"
    | .none => "None"
    | .complex re im => complexStr re im
    | .list vs => "[" ++ commaSep (vs.map (fun x => pyReprF n x)) ++ "]"
    | .tuple [x] => "(" ++ pyReprF n x ++ ",)"
    | .tuple vs => "(" ++ commaSep (vs.map (fun x => pyReprF n x)) ++ ")"
    | .builtin b => "<built-in function " ++ b.pyName ++ ">"

/-- Python `repr` of a value. -/
noncomputable def pyRepr (v : Value) : String := pyReprF (sizeOf v + 1) v

/-- Python `str` of a value: like `repr` except strings are unquoted. -/
noncomputable def pyStr : Value → String
  | .str s => s
  | v => pyRepr v

/-- The result formatting of `CalculatorTool.execute`: floats go through the
`is_integer`/`%.10g` branch, everything else through `str(result)`. -/
noncomputable def formatVal : Value → String
  | .float r => formatFloat r
  | v => pyStr v

/-- Evaluate each element of a list, stopping at the first error (the list
comprehensions `[self._eval(arg) for arg in node.args]` etc. of `_eval`). -/
def mapE {α β : Type} (f : α → Except Err β) : List α → Except Err (List β)
  | [] => .ok []
  | a :: as =>
    match f a with
    | .error e => .error e
    | .ok b =>
      match mapE f as with
      | .error e => .error e
      | .ok bs => .ok (b :: bs)

/-- One step of `SafeMathEvaluator._eval`, with `rec` standing for the recursive
calls.  Branch order and evaluation order follow the source: constants return
their value verbatim; names resolve through the `functions` whitelist only;
`BinOp` evaluates left then right and only then looks up the operator;
`UnaryOp` evaluates the operand then looks up; `Call` evaluates the callee,
checks `callable`, then evaluates the arguments and applies; `List`/`Tuple`
evaluate their elements; every other node kind is rejected. -/
noncomputable def evalStep (rec : Expr → Except Err Value) : Expr → Except Err Value
  | .const l => .ok (litValue l)
  | .name id =>
    match functions id with
    | some v => .ok v
    | Option.none => .error (.unknownIdentifier id)
  | .binop op a b =>
    match rec a with
    | .error e => .error e
    | .ok va =>
      match rec b with
      | .error e => .error e
      | .ok vb =>
        match operators op with
        | some f => f va vb
        | Option.none => .error (.unsupportedOperator op.pyName)
  | .unop op a =>
    match rec a with
    | .error e => .error e
    | .ok v =>
      match unaryOperators op with
      | some f => f v
      | Option.none => .error (.unsupportedUnaryOperator op.pyName)
  | .call f args =>
    match rec f with
    | .error e => .error e
    | .ok fv =>
      match fv with
      | .builtin b =>
        match mapE rec args with
        | .error e => .error e
        | .ok vs => applyBuiltin b vs
      | _ => .error (.notCallable (pyStr fv))
  | .listLit es =>
    match mapE rec es with
    | .error e => .error e
    | .ok vs => .ok (.list vs)
  | .tupleLit es =>
    match mapE rec es with
    | .error e => .error e
    | .ok vs => .ok (.tuple vs)
  | .other kind _ => .error (.unsupportedConstruct kind)

/-- Fuel-indexed recursive evaluator.  The fuel only encodes the recursion of
`_eval` in a structurally terminating way; `eval` supplies more fuel than the
tree's size, so the `recursionLimit` case is unreachable from `eval`. -/
noncomputable def evalF : Nat → Expr → Except Err Value
  | 0, _ => .error .recursionLimit
  | n + 1, e => evalStep (fun c => evalF n c) e

/-- `SafeMathEvaluator._eval` on a tree. -/
noncomputable def eval (e : Expr) : Except Err Value := evalF (sizeOf e + 1) e


/-- The single-quote character (Python string-literal delimiter). -/
def qc : Char := Char.ofNat 39

/-- Tokens of the modelled fragment of Python's expression grammar. -/
inductive Tok where
  | intT (n : ℕ)
  | floatT (q : ℚ)
  | ident (s : String)
  | strT (s : String)
  | sym (s : String)
  deriving DecidableEq

/-- ASCII digit test. -/
def isDigitC (c : Char) : Bool := 48 ≤ c.toNat && c.toNat ≤ 57

/-- ASCII identifier-start test (letters and underscore). -/
def isAlphaC (c : Char) : Bool :=
  (65 ≤ c.toNat && c.toNat ≤ 90) || (97 ≤ c.toNat && c.toNat ≤ 122) || c.toNat == 95

/-- Identifier-continuation test. -/
def isIdentC (c : Char) : Bool := isAlphaC c || isDigitC c

/-- Python whitespace stripped by `str.strip`. -/
def isWsC (c : Char) : Bool :=
  c == ' ' || c == '\t' || c == '\n' || c == '\r' || c.toNat == 11 || c.toNat == 12

/-- Model of `expression.strip()`. -/
def pyStrip (s : String) : String :=
  String.mk (((s.data.dropWhile isWsC).reverse.dropWhile isWsC).reverse)

/-- Split a leading run of digits (as digit values) from a character list. -/
def takeDigits : List Char → (List ℕ × List Char)
  | [] => ([], [])
  | c :: cs =>
    if isDigitC c then
      let p := takeDigits cs
      ((c.toNat - 48) :: p.1, p.2)
    else ([], c :: cs)

/-- Split a leading identifier from a character list. -/
def takeIdent : List Char → (List Char × List Char)
  | [] => ([], [])
  | c :: cs =>
    if isIdentC c then
      let p := takeIdent cs
      (c :: p.1, p.2)
    else ([], c :: cs)

/-- Numeric value of a big-endian digit list. -/
def digitsVal (ds : List ℕ) : ℕ := ds.foldl (fun a d => 10 * a + d) 0

/-- Attach an optional exponent part (`e`/`E`, optional sign, digits) to a
lexed number.  Without a valid exponent the token falls back to `noExpTok`. -/
def lexExpPart (q : ℚ) (noExpTok : Tok) : List Char → (Tok × List Char) :=
  fun cs =>
    match cs with
    | c :: rest =>
      if c == 'e' || c == 'E' then
        match rest with
        | c2 :: r2 =>
          if c2 == '+' then
            let p := takeDigits r2
            if p.1.isEmpty then (noExpTok, cs)
            else (.floatT (q * (10 : ℚ) ^ (digitsVal p.1)), p.2)
          else if c2 == '-' then
            let p := takeDigits r2
            if p.1.isEmpty then (noExpTok, cs)
            else (.floatT (q * (10 : ℚ) ^ (-(digitsVal p.1 : ℤ))), p.2)
          else
            let p := takeDigits rest
            if p.1.isEmpty then (noExpTok, cs)
            else (.floatT (q * (10 : ℚ) ^ (digitsVal p.1)), p.2)
        | [] => (noExpTok, cs)
      else (noExpTok, cs)
    | [] => (noExpTok, cs)

/-- Lex one numeric literal (the head of `cs` is a digit, or a dot followed by
a digit).  Python's rejection of leading zeros (`007`) is not modelled. -/
def lexNum (cs : List Char) : Tok × List Char :=
  let pInt := takeDigits cs
  let intV := digitsVal pInt.1
  match pInt.2 with
  | c :: rest =>
    if c == '.' then
      let pFrac := takeDigits rest
      let q : ℚ := (intV : ℚ) + (digitsVal pFrac.1 : ℚ) / (10 : ℚ) ^ pFrac.1.length
      lexExpPart q (.floatT q) pFrac.2
    else lexExpPart (intV : ℚ) (.intT intV) pInt.2
  | [] => (.intT intV, [])

/-- Tokenizer loop.  Fuel is an encoding artifact: every step consumes at least
one character, and `tokenize` supplies `length + 1`. -/
def tokLoop : Nat → List Char → Except String (List Tok)
  | 0, _ => .error "tokenizer fuel exhausted"
  | _ + 1, [] => .ok []
  | n + 1, c :: cs =>
    if c == ' ' || c == '\t' then tokLoop n cs
    else if isDigitC c then
      let p := lexNum (c :: cs)
      match tokLoop n p.2 with
      | .error e => .error e
      | .ok ts => .ok (p.1 :: ts)
    else if c == '.' && (cs.headD ' ' |> isDigitC) then
      let p := lexNum (c :: cs)
      match tokLoop n p.2 with
      | .error e => .error e
      | .ok ts => .ok (p.1 :: ts)
    else if isAlphaC c then
      let p := takeIdent (c :: cs)
      match tokLoop n p.2 with
      | .error e => .error e
      | .ok ts => .ok (.ident (String.mk p.1) :: ts)
    else if c == qc then
      let content := cs.takeWhile (fun d => d != qc)
      match cs.drop content.length with
      | q2 :: rest =>
        if q2 == qc then
          match tokLoop n rest with
          | .error e => .error e
          | .ok ts => .ok (.strT (String.mk content) :: ts)
        else .error "unterminated string literal"
      | [] => .error "unterminated string literal"
    else
      let two : Option String :=
        match c, cs with
        | '*', '*' :: _ => some "**"
        | '/', '/' :: _ => some "//"
        | '<', '<' :: _ => some "<<"
        | '>', '>' :: _ => some ">>"
        | _, _ => Option.none
      match two with
      | some s2 =>
        match tokLoop n (cs.drop 1) with
        | .error e => .error e
        | .ok ts => .ok (.sym s2 :: ts)
      | Option.none =>
        if c == '+' || c == '-' || c == '*' || c == '/' || c == '%' || c == '(' ||
           c == ')' || c == '[' || c == ']' || c == ',' || c == '.' || c == '|' ||
           c == '&' || c == '^' || c == '~' then
          match tokLoop n cs with
          | .error e => .error e
          | .ok ts => .ok (.sym (String.singleton c) :: ts)
        else .error "invalid syntax"

/-- Model of Python's tokenizer on the stripped input.  Tokens outside the
modelled fragment (comparisons, `=`, `:`, internal newlines, double-quoted
strings, ...) are reported as syntax errors: the modelled parser accepts a
subset of what `ast.parse` accepts, which is the safe direction for every
claim stated below (parser-producibility is only ever used existentially). -/
def tokenize (s : String) : Except String (List Tok) :=
  tokLoop ((pyStrip s).data.length + 1) (pyStrip s).data

/-- Precedence levels of the modelled expression grammar, from loosest binding
(`|`) down to atoms, following CPython's grammar. -/
inductive Lv where
  | bitor | bitxor | bitand | shift | arith | term | factor | power | post | atom

/-- The left-associative binary operators of each looping level. -/
def lvOps : Lv → List (String × BOp)
  | .bitor => [("|", .bitOr)]
  | .bitxor => [("^", .bitXor)]
  | .bitand => [("&", .bitAnd)]
  | .shift => [("<<", .lshift), (">>", .rshift)]
  | .arith => [("+", .add), ("-", .sub)]
  | .term => [("*", .mult), ("/", .div), ("//", .floorDiv), ("%", .mod)]
  | _ => []

/-- The next-tighter level below a looping level. -/
def lvNext : Lv → Lv
  | .bitor => .bitxor
  | .bitxor => .bitand
  | .bitand => .shift
  | .shift => .arith
  | .arith => .term
  | .term => .factor
  | _ => .atom

/-- Operator lookup in a level's operator list. -/
def lookupOp : List (String × BOp) → String → Option BOp
  | [], _ => Option.none
  | (s, op) :: rest, t => if s = t then some op else lookupOp rest t

/-- Left-associative binary-operator loop over a sub-parser. -/
def leftLoop (sub : List Tok → Except String (Expr × List Tok))
    (ops : List (String × BOp)) :
    Nat → Expr → List Tok → Except String (Expr × List Tok)
  | 0, _, _ => .error "parser fuel exhausted"
  | n + 1, acc, ts =>
    match ts with
    | .sym s :: rest =>
      match lookupOp ops s with
      | some op =>
        match sub rest with
        | .error e => .error e
        | .ok (r, ts2) => leftLoop sub ops n (.binop op acc r) ts2
      | Option.none => .ok (acc, ts)
    | _ => .ok (acc, ts)

/-- Does the token list start with the closing symbol?  Returns the remainder. -/
def headClose (closeS : String) : List Tok → Option (List Tok)
  | .sym s :: rest => if s = closeS then some rest else Option.none
  | _ => Option.none

/-- Comma-separated expression list up to a closing symbol (call arguments,
list/tuple displays); allows a trailing comma, as Python does. -/
def argsLoop (full : List Tok → Except String (Expr × List Tok)) (closeS : String) :
    Nat → List Tok → Except String (List Expr × List Tok)
  | 0, _ => .error "parser fuel exhausted"
  | n + 1, ts =>
    match headClose closeS ts with
    | some rest => .ok ([], rest)
    | Option.none =>
      match full ts with
      | .error e => .error e
      | .ok (e, ts1) =>
        match ts1 with
        | .sym "," :: r2 =>
          (match argsLoop full closeS n r2 with
           | .error er => .error er
           | .ok (es, ts2) => .ok (e :: es, ts2))
        | .sym s2 :: r2 => if s2 = closeS then .ok ([e], r2) else .error "invalid syntax"
        | _ => .error "invalid syntax"

/-- Postfix trailer loop: calls `f(...)`, attribute access `.name` (an `ast`
node kind outside the evaluator's whitelist, collapsed to `other "Attribute"`),
and subscripts `a[i]` (collapsed to `other "Subscript"`). -/
def postLoop (full : List Tok → Except String (Expr × List Tok)) :
    Nat → Expr → List Tok → Except String (Expr × List Tok)
  | 0, _, _ => .error "parser fuel exhausted"
  | n + 1, acc, ts =>
    match ts with
    | .sym "(" :: rest =>
      match argsLoop full ")" n rest with
      | .error e => .error e
      | .ok (args, ts2) => postLoop full n (.call acc args) ts2
    | .sym "[" :: rest =>
      (match argsLoop full "]" n rest with
       | .error e => .error e
       | .ok (idxs, ts2) => postLoop full n (.other "Subscript" (acc :: idxs)) ts2)
    | .sym "." :: .ident _ :: rest => postLoop full n (.other "Attribute" [acc]) rest
    | .sym "." :: _ => .error "invalid syntax"
    | _ => .ok (acc, ts)

/-- Recursive-descent parser over the precedence levels, mirroring CPython's
expression grammar for the modelled fragment (`**` binds tighter than unary
minus on its left and looser on its right: `-2**2 = -(2**2)`, `2**-1` parses). -/
def parseP : Nat → Lv → List Tok → Except String (Expr × List Tok)
  | 0, _, _ => .error "parser fuel exhausted"
  | n + 1, lv, ts =>
    match lv with
    | .bitor | .bitxor | .bitand | .shift | .arith | .term =>
      (match parseP n (lvNext lv) ts with
       | .error e => .error e
       | .ok (l, ts1) => leftLoop (fun u => parseP n (lvNext lv) u) (lvOps lv) n l ts1)
    | .factor =>
      (match ts with
       | .sym "-" :: rest =>
         (match parseP n .factor rest with
          | .error e => .error e
          | .ok (e, ts1) => .ok (.unop .usub e, ts1))
       | .sym "+" :: rest =>
         (match parseP n .factor rest with
          | .error e => .error e
          | .ok (e, ts1) => .ok (.unop .uadd e, ts1))
       | .sym "~" :: rest =>
         (match parseP n .factor rest with
          | .error e => .error e
          | .ok (e, ts1) => .ok (.unop .invert e, ts1))
       | _ => parseP n .power ts)
    | .power =>
      (match parseP n .post ts with
       | .error e => .error e
       | .ok (b, ts1) =>
         match ts1 with
         | .sym "**" :: rest =>
           (match parseP n .factor rest with
            | .error e => .error e
            | .ok (e2, ts2) => .ok (.binop .pow b e2, ts2))
         | _ => .ok (b, ts1))
    | .post =>
      (match parseP n .atom ts with
       | .error e => .error e
       | .ok (a, ts1) => postLoop (fun u => parseP n .bitor u) n a ts1)
    | .atom =>
      match ts with
      | .intT v :: rest => .ok (.const (.intL (v : ℤ)), rest)
      | .floatT q :: rest => .ok (.const (.floatL q), rest)
      | .strT s :: rest => .ok (.const (.strL s), rest)
      | .ident "True" :: rest => .ok (.const (.boolL true), rest)
      | .ident "False" :: rest => .ok (.const (.boolL false), rest)
      | .ident "None" :: rest => .ok (.const .noneL, rest)
      | .ident s :: rest => .ok (.name s, rest)
      | .sym "(" :: rest =>
        (match rest with
         | .sym ")" :: r2 => .ok (.tupleLit [], r2)
         | _ =>
           match parseP n .bitor rest with
           | .error e => .error e
           | .ok (e, ts1) =>
             match ts1 with
             | .sym ")" :: r2 => .ok (e, r2)
             | .sym "," :: r2 =>
               (match argsLoop (fun u => parseP n .bitor u) ")" n r2 with
                | .error er => .error er
                | .ok (es, ts2) => .ok (.tupleLit (e :: es), ts2))
             | _ => .error "invalid syntax")
      | .sym "[" :: rest =>
        (match argsLoop (fun u => parseP n .bitor u) "]" n rest with
         | .error e => .error e
         | .ok (es, ts2) => .ok (.listLit es, ts2))
      | _ => .error "invalid syntax"

/-- Model of `ast.parse(expression.strip(), mode='eval').body` on the grammar
fragment: tokenize, parse a full expression, require all tokens consumed.  The
parser fuel is an encoding artifact, sized generously above any possible
descent for the token count. -/
def parse (s : String) : Except String Expr :=
  match tokenize s with
  | .error e => .error e
  | .ok ts =>
    match parseP (16 * (ts.length + 4)) .bitor ts with
    | .error e => .error e
    | .ok (e, []) => .ok e
    | .ok (_, _ :: _) => .error "invalid syntax"

/-- Parse-then-evaluate with the error kind preserved (the body of
`SafeMathEvaluator.evaluate`'s `try`, before the wrapping `except`). -/
noncomputable def evalString (s : String) : Except Err Value :=
  match parse s with
  | .error m => .error (.syntaxError m)
  | .ok t => eval t

/-- `SafeMathEvaluator.evaluate`: every exception from parsing or evaluation is
caught and re-raised as `ValueError("Invalid expression: " + str(e))`. -/
noncomputable def evaluate (s : String) : Except String Value :=
  match evalString s with
  | .ok v => .ok v
  | .error e => .error ("Invalid expression: " ++ errMessage e)

/-- `CalculatorTool.execute`: total — every error becomes a result string
`"Error calculating '<expr>': <message>"`, and a success becomes
`"<expr> = <formatted result>"`. -/
noncomputable def execute (s : String) : String :=
  match evaluate s with
  | .ok v => s ++ " = " ++ formatVal v
  | .error m => "Error calculating " ++ sq ++ s ++ sq ++ ": " ++ m

/-- The expression tree `e` contains a reference to the identifier `id`
(a `Name` node with that id, anywhere in the tree). -/
inductive RefsName (id : String) : Expr → Prop where
  | here : RefsName id (.name id)
  | binL {op a b} : RefsName id a → RefsName id (.binop op a b)
  | binR {op a b} : RefsName id b → RefsName id (.binop op a b)
  | un {op a} : RefsName id a → RefsName id (.unop op a)
  | callF {f args} : RefsName id f → RefsName id (.call f args)
  | callArg {f args e} : e ∈ args → RefsName id e → RefsName id (.call f args)
  | listE {es e} : e ∈ es → RefsName id e → RefsName id (.listLit es)
  | tupleE {es e} : e ∈ es → RefsName id e → RefsName id (.tupleLit es)
  | otherC {k cs e} : e ∈ cs → RefsName id e → RefsName id (.other k cs)


/-- Numeric values: ints, floats, and bools (which Python treats as ints). -/
def isNumericV : Value → Bool
  | .int _ => true
  | .float _ => true
  | .bool _ => true
  | _ => false

/-- The value is Python-`== 0`: the int 0, the float 0.0, or `False`. -/
def IsZeroV : Value → Prop
  | .int z => z = 0
  | .float r => r = 0
  | .bool b => b = false
  | _ => False

/-! ## Lemmas about the embedding -/

/-- The fueled digit function agrees with `Nat.digits 10` when given enough fuel. -/
lemma natDigitsF_eq (f : ℕ) : ∀ n : ℕ, n ≤ f → natDigitsF f n = Nat.digits 10 n := by
  induction f with
  | zero =>
    intro n hn
    interval_cases n
    simp [natDigitsF]
  | succ f ih =>
    intro n hn
    cases n with
    | zero => simp [natDigitsF]
    | succ m =>
      rw [natDigitsF, Nat.digits_def' (by norm_num : 1 < 10) (Nat.succ_pos m)]
      congr 1
      exact ih _ (by
        have : (m + 1) / 10 < m + 1 := Nat.div_lt_self (Nat.succ_pos m) (by norm_num)
        omega)

/-- `natDigits` is `Nat.digits 10`. -/
lemma natDigits_eq_digits (n : ℕ) : natDigits n = Nat.digits 10 n :=
  natDigitsF_eq n n le_rfl

/-- `mapE` only depends on the function's values on the list's members. -/
lemma mapE_congr {α β : Type} (f g : α → Except Err β) (l : List α)
    (h : ∀ a ∈ l, f a = g a) : mapE f l = mapE g l := by
  induction l with
  | nil => rfl
  | cons a as ih =>
    simp only [mapE]
    rw [h a (by simp), ih (fun x hx => h x (by simp [hx]))]

/-- One evaluator step only consults the recursive evaluator on strict subtrees. -/
lemma evalStep_congr (r r' : Expr → Except Err Value) (e : Expr)
    (h : ∀ c, sizeOf c < sizeOf e → r c = r' c) : evalStep r e = evalStep r' e := by
  cases e with
  | const l => rfl
  | name id => rfl
  | binop op a b =>
    simp only [evalStep]
    rw [h a (by simp; try omega), h b (by simp; try omega)]
  | unop op a =>
    simp only [evalStep]
    rw [h a (by simp; try omega)]
  | call f args =>
    simp only [evalStep]
    rw [h f (by simp; try omega),
      mapE_congr r r' args (fun c hc => h c (by
        have := List.sizeOf_lt_of_mem hc
        simp
        try omega))]
  | listLit es =>
    simp only [evalStep]
    rw [mapE_congr r r' es (fun c hc => h c (by
      have := List.sizeOf_lt_of_mem hc
      simp
      try omega))]
  | tupleLit es =>
    simp only [evalStep]
    rw [mapE_congr r r' es (fun c hc => h c (by
      have := List.sizeOf_lt_of_mem hc
      simp
      try omega))]
  | other k cs => rfl

/-- Fuel irrelevance: any two sufficient fuels evaluate a tree identically. -/
lemma evalF_congr : ∀ n m : ℕ, ∀ e : Expr, sizeOf e < n → sizeOf e < m →
    evalF n e = evalF m e := by
  intro n
  induction n using Nat.strong_induction_on with
  | _ n ih =>
    intro m e hn hm
    cases n with
    | zero => omega
    | succ k =>
      cases m with
      | zero => omega
      | succ j =>
        show evalStep (fun c => evalF k c) e = evalStep (fun c => evalF j c) e
        apply evalStep_congr
        intro c hc
        exact ih k (by omega) j c (by omega) (by omega)

/-- Any fuel above the tree's size computes `eval`. -/
lemma eval_eq_evalF {n : ℕ} (e : Expr) (h : sizeOf e < n) : evalF n e = eval e :=
  evalF_congr n (sizeOf e + 1) e h (by omega)

/-- Equation: constants evaluate to their value, verbatim. -/
lemma eval_const (l : Lit) : eval (.const l) = .ok (litValue l) := rfl

/-- Equation: names resolve through the `functions` whitelist only. -/
lemma eval_name (id : String) :
    eval (.name id) =
      (match functions id with
       | some v => .ok v
       | Option.none => .error (.unknownIdentifier id)) := rfl

/-- Equation: the default-deny branch rejects any other node kind without
looking at its children. -/
lemma eval_other (k : String) (cs : List Expr) :
    eval (.other k cs) = .error (.unsupportedConstruct k) := rfl

/-- Equation for `BinOp` nodes: evaluate left, then right, then look the
operator up in the whitelist. -/
lemma eval_binop (op : BOp) (a b : Expr) :
    eval (.binop op a b) =
      (match eval a with
       | .error e => .error e
       | .ok va =>
         match eval b with
         | .error e => .error e
         | .ok vb =>
           match operators op with
           | some f => f va vb
           | Option.none => .error (.unsupportedOperator op.pyName)) := by
  have ha : evalF (sizeOf (Expr.binop op a b)) a = eval a :=
    eval_eq_evalF a (by simp; try omega)
  have hb : evalF (sizeOf (Expr.binop op a b)) b = eval b :=
    eval_eq_evalF b (by simp; try omega)
  show evalStep (fun c => evalF (sizeOf (Expr.binop op a b)) c) (.binop op a b) = _
  simp only [evalStep, ha, hb]

/-- Equation for `UnaryOp` nodes. -/
lemma eval_unop (op : UOp) (a : Expr) :
    eval (.unop op a) =
      (match eval a with
       | .error e => .error e
       | .ok v =>
         match unaryOperators op with
         | some f => f v
         | Option.none => .error (.unsupportedUnaryOperator op.pyName)) := by
  have ha : evalF (sizeOf (Expr.unop op a)) a = eval a :=
    eval_eq_evalF a (by simp; try omega)
  show evalStep (fun c => evalF (sizeOf (Expr.unop op a)) c) (.unop op a) = _
  simp only [evalStep, ha]

/-- Equation for `Call` nodes: evaluate the callee, require it to be callable,
then evaluate the arguments and apply. -/
lemma eval_call (f : Expr) (args : List Expr) :
    eval (.call f args) =
      (match eval f with
       | .error e => .error e
       | .ok fv =>
         match fv with
         | .builtin b =>
           match mapE eval args with
           | .error e => .error e
           | .ok vs => applyBuiltin b vs
         | _ => .error (.notCallable (pyStr fv))) := by
  have hf : evalF (sizeOf (Expr.call f args)) f = eval f :=
    eval_eq_evalF f (by simp; try omega)
  have hargs : mapE (fun c => evalF (sizeOf (Expr.call f args)) c) args = mapE eval args :=
    mapE_congr _ _ args (fun c hc =>
      eval_eq_evalF c (by
        have := List.sizeOf_lt_of_mem hc
        simp
        try omega))
  show evalStep (fun c => evalF (sizeOf (Expr.call f args)) c) (.call f args) = _
  simp only [evalStep, hf, hargs]

/-- Equation for list displays. -/
lemma eval_listLit (es : List Expr) :
    eval (.listLit es) =
      (match mapE eval es with
       | .error e => .error e
       | .ok vs => .ok (.list vs)) := by
  have hes : mapE (fun c => evalF (sizeOf (Expr.listLit es)) c) es = mapE eval es :=
    mapE_congr _ _ es (fun c hc =>
      eval_eq_evalF c (by
        have := List.sizeOf_lt_of_mem hc
        simp
        try omega))
  show evalStep (fun c => evalF (sizeOf (Expr.listLit es)) c) (.listLit es) = _
  simp only [evalStep, hes]

/-- Equation for tuple displays. -/
lemma eval_tupleLit (es : List Expr) :
    eval (.tupleLit es) =
      (match mapE eval es with
       | .error e => .error e
       | .ok vs => .ok (.tuple vs)) := by
  have hes : mapE (fun c => evalF (sizeOf (Expr.tupleLit es)) c) es = mapE eval es :=
    mapE_congr _ _ es (fun c hc =>
      eval_eq_evalF c (by
        have := List.sizeOf_lt_of_mem hc
        simp
        try omega))
  show evalStep (fun c => evalF (sizeOf (Expr.tupleLit es)) c) (.tupleLit es) = _
  simp only [evalStep, hes]


/-- If a member of the list fails to evaluate, the element-wise evaluation
cannot succeed. -/
lemma mapE_ne_ok_of_mem {g : Expr → Except Err Value} {es : List Expr} {e : Expr}
    (he : e ∈ es) (hf : ∀ v, g e ≠ .ok v) : ∀ vs, mapE g es ≠ .ok vs := by
  induction es with
  | nil => simp at he
  | cons a as ih =>
    intro vs
    simp only [mapE]
    cases hga : g a with
    | error err => simp
    | ok b =>
      rcases List.mem_cons.mp he with rfl | hmem
      · exact absurd hga (hf b)
      · cases hmas : mapE g as with
        | error err => simp
        | ok bs => exact absurd hmas (ih hmem _)

/-- A `BinOp` node cannot succeed if its left operand fails. -/
lemma binop_ne_ok_left {op : BOp} {a b : Expr}
    (h : ∀ v, eval a ≠ .ok v) : ∀ v, eval (.binop op a b) ≠ .ok v := by
  intro v
  rw [eval_binop]
  cases ha : eval a with
  | error e => simp
  | ok va => exact absurd ha (h va)

/-- A `BinOp` node cannot succeed if its right operand fails. -/
lemma binop_ne_ok_right {op : BOp} {a b : Expr}
    (h : ∀ v, eval b ≠ .ok v) : ∀ v, eval (.binop op a b) ≠ .ok v := by
  intro v
  rw [eval_binop]
  cases ha : eval a with
  | error e => simp
  | ok va =>
    cases hb : eval b with
    | error e => simp
    | ok vb => exact absurd hb (h vb)

/-- A `UnaryOp` node cannot succeed if its operand fails. -/
lemma unop_ne_ok {op : UOp} {a : Expr}
    (h : ∀ v, eval a ≠ .ok v) : ∀ v, eval (.unop op a) ≠ .ok v := by
  intro v
  rw [eval_unop]
  cases ha : eval a with
  | error e => simp
  | ok va => exact absurd ha (h va)

/-- A `Call` node cannot succeed if its callee fails. -/
lemma call_ne_ok_func {f : Expr} {args : List Expr}
    (h : ∀ v, eval f ≠ .ok v) : ∀ v, eval (.call f args) ≠ .ok v := by
  intro v
  rw [eval_call]
  cases hf : eval f with
  | error e => simp
  | ok fv => exact absurd hf (h fv)

/-- A `Call` node cannot succeed if one of its arguments fails. -/
lemma call_ne_ok_arg {f : Expr} {args : List Expr} {e : Expr}
    (he : e ∈ args) (h : ∀ v, eval e ≠ .ok v) : ∀ v, eval (.call f args) ≠ .ok v := by
  intro v
  rw [eval_call]
  cases hf : eval f with
  | error er => simp
  | ok fv =>
    cases fv with
    | builtin b =>
      cases hm : mapE eval args with
      | error er => simp
      | ok vs => exact absurd hm (mapE_ne_ok_of_mem he h _)
    | int z => simp
    | float r => simp
    | str s => simp
    | bool bb => simp
    | none => simp
    | complex re im => simp
    | list l => simp
    | tuple l => simp

/-- A list display cannot succeed if one of its elements fails. -/
lemma listLit_ne_ok {es : List Expr} {e : Expr}
    (he : e ∈ es) (h : ∀ v, eval e ≠ .ok v) : ∀ v, eval (.listLit es) ≠ .ok v := by
  intro v
  rw [eval_listLit]
  cases hm : mapE eval es with
  | error er => simp
  | ok vs => exact absurd hm (mapE_ne_ok_of_mem he h _)

/-- A tuple display cannot succeed if one of its elements fails. -/
lemma tupleLit_ne_ok {es : List Expr} {e : Expr}
    (he : e ∈ es) (h : ∀ v, eval e ≠ .ok v) : ∀ v, eval (.tupleLit es) ≠ .ok v := by
  intro v
  rw [eval_tupleLit]
  cases hm : mapE eval es with
  | error er => simp
  | ok vs => exact absurd hm (mapE_ne_ok_of_mem he h _)

/-- Strictness of the tree walk: an expression that references an identifier
outside the `functions` whitelist never evaluates to a value.  Either the walk
reaches the `Name` node and fails with the unknown-identifier error, or it
fails even earlier (sibling error, non-callable callee, or an unsupported
enclosing node kind); in no case is the name resolved or any result produced. -/
lemma eval_ne_ok_of_refs {id : String} (hid : functions id = Option.none) :
    ∀ e : Expr, RefsName id e → ∀ v, eval e ≠ .ok v := by
  intro e href
  induction href with
  | here =>
    intro v
    rw [eval_name, hid]
    simp
  | binL _ ih => exact binop_ne_ok_left ih
  | binR _ ih => exact binop_ne_ok_right ih
  | un _ ih => exact unop_ne_ok ih
  | callF _ ih => exact call_ne_ok_func ih
  | callArg hm _ ih => exact call_ne_ok_arg hm ih
  | listE hm _ ih => exact listLit_ne_ok hm ih
  | tupleE hm _ ih => exact tupleLit_ne_ok hm ih
  | otherC _ _ _ =>
    intro v
    rw [eval_other]
    simp

end Calculator

namespace Calculator

/-! ## The claims -/

/-- C1: for every identifier name not present in the `functions` whitelist,
referencing that name never executes it: the reference itself fails with the
unknown-identifier error, and any expression containing such a reference never
evaluates to a result (an error raised earlier in evaluation order propagates
instead, so evaluation still fails). -/
theorem c1_unknown_identifier_never_executes (id : String)
    (hid : functions id = Option.none) :
    eval (.name id) = .error (.unknownIdentifier id) ∧
    ∀ e : Expr, RefsName id e → ∀ v, eval e ≠ .ok v := by
  constructor
  · rw [eval_name, hid]
  · exact eval_ne_ok_of_refs hid

/-- Witness for C1 at the identifier `os`: a bare reference in `os + 1`, and
the specification's scenario `os.system('rm -rf')`, whose parse tree references
`os` under an `Attribute` node and which never evaluates to a result. -/
theorem c1_witness :
    eval (.name "os") = .error (.unknownIdentifier "os") ∧
    (∀ v, eval (.binop .add (.name "os") (.const (.intL 1))) ≠ .ok v) ∧
    parse ("os.system(" ++ sq ++ "rm -rf" ++ sq ++ ")") =
      .ok (.call (.other "Attribute" [.name "os"]) [.const (.strL "rm -rf")]) ∧
    (∀ v, eval (.call (.other "Attribute" [.name "os"]) [.const (.strL "rm -rf")]) ≠
      .ok v) := by
  have h := c1_unknown_identifier_never_executes "os" rfl
  exact ⟨h.1, h.2 _ (RefsName.binL RefsName.here), rfl,
    h.2 _ (RefsName.callF (RefsName.otherC (List.Mem.head _) RefsName.here))⟩

/-- C2 counterexample: the parser can produce trees containing node kinds
outside the supported set — `"a.b"` parses to an `Attribute` node — so the
default-deny branch is reachable from parser-producible trees, refuting the
claim's "no parser-producible tree contains such a node". -/
theorem c2_counterexample :
    parse "a.b" = .ok (.other "Attribute" [.name "a"]) ∧
    eval (.other "Attribute" [.name "a"]) = .error (.unsupportedConstruct "Attribute") :=
  ⟨rfl, rfl⟩

/-- C2 amended: every node kind outside the supported set
`Literal/Identifier/BinaryOp/UnaryOp/Call/ListLiteral/TupleLiteral` fails with
`UnsupportedConstructError(kind)` without touching its children; such nodes are
producible by the parser (see the counterexample), so the default-deny branch
is a live, reachable safety check rather than unreachable code. -/
theorem c2_default_deny (kind : String) (children : List Expr) :
    eval (.other kind children) = .error (.unsupportedConstruct kind) :=
  eval_other kind children

/-- C4: the public entry point is total: for every input string, `execute`
returns a plain result string — a successful evaluation is formatted, and every
parsing or evaluation error is converted into a result string carrying its
error kind's human-readable message wrapped by the evaluator boundary.
Non-propagation of exceptions is expressed by `execute`'s total type. -/
theorem c4_errors_confined (s : String) :
    (∃ v, evalString s = .ok v ∧ execute s = s ++ " = " ++ formatVal v) ∨
    (∃ e, evalString s = .error e ∧
      execute s = "Error calculating " ++ sq ++ s ++ sq ++ ": " ++
        ("Invalid expression: " ++ errMessage e)) := by
  cases h : evalString s with
  | ok v => exact Or.inl ⟨v, rfl, by simp [execute, evaluate, h]⟩
  | error e => exact Or.inr ⟨e, rfl, by simp [execute, evaluate, h]⟩

/-- C5 counterexample: the parser emits `BinOp` operator tags outside the
whitelist — `"1|2"` parses to a `BitOr` node — and evaluating it reaches the
unsupported-operator failure branch, refuting "the parser only ever emits
whitelisted operator tags / the failure branch is unreachable". -/
theorem c5_counterexample :
    parse "1|2" = .ok (.binop .bitOr (.const (.intL 1)) (.const (.intL 2))) ∧
    eval (.binop .bitOr (.const (.intL 1)) (.const (.intL 2))) =
      .error (.unsupportedOperator "BitOr") :=
  ⟨rfl, rfl⟩

/-- C5 amended: the lookup succeeds for the seven whitelisted binary operator
tags; for any operator tag outside the whitelist (which the parser can emit,
e.g. the bitwise operators) the lookup fails after both operands evaluate, with
the unsupported-operator error. -/
theorem c5_operator_whitelist :
    (∀ op : BOp, op ∈ [BOp.add, .sub, .mult, .div, .pow, .mod, .floorDiv] →
      (operators op).isSome = true) ∧
    (∀ (op : BOp) (a b : Expr) (va vb : Value), operators op = Option.none →
      eval a = .ok va → eval b = .ok vb →
      eval (.binop op a b) = .error (.unsupportedOperator op.pyName)) := by
  constructor
  · intro op hop
    fin_cases hop <;> rfl
  · intro op a b va vb hop ha hb
    rw [eval_binop, ha, hb, hop]

/-- Witness for C5's amended statement at `1 | 2`. -/
theorem c5_witness :
    eval (.binop .bitOr (.const (.intL 1)) (.const (.intL 2))) =
      .error (.unsupportedOperator (BOp.bitOr.pyName)) :=
  c5_operator_whitelist.2 .bitOr _ _ (.int 1) (.int 2) rfl rfl rfl

/-- C10: the Constant branch returns the parsed constant's value verbatim with
no numeric check; hence the quoted-string input `'abc'` evaluates successfully
to the string value `abc`, and `execute` renders it as a result rather than
failing. -/
theorem c10_constant_verbatim :
    (∀ l : Lit, eval (.const l) = .ok (litValue l)) ∧
    evalString (sq ++ "abc" ++ sq) = .ok (.str "abc") ∧
    execute (sq ++ "abc" ++ sq) = sq ++ "abc" ++ sq ++ " = abc" :=
  ⟨eval_const, rfl, rfl⟩

end Calculator

namespace Calculator

/-- C3: on numeric operands (int, float, bool — the calculator's scope), `/`
and `%` with a zero-valued right operand fail with `ZeroDivisionError`; and
division or modulo by the literal `0` never produces a float — in particular
never infinity or NaN (the source raises before any float is produced; this
also holds for non-numeric left operands, whose failures are type errors). -/
theorem c3_division_by_zero :
    (∀ (a b : Expr) (va vb : Value), eval a = .ok va → isNumericV va = true →
      eval b = .ok vb → IsZeroV vb →
      (∃ m, eval (.binop .div a b) = .error (.divisionByZero m)) ∧
      (∃ m, eval (.binop .mod a b) = .error (.divisionByZero m))) ∧
    (∀ (a : Expr) (r : ℝ),
      eval (.binop .div a (.const (.intL 0))) ≠ .ok (.float r) ∧
      eval (.binop .mod a (.const (.intL 0))) ≠ .ok (.float r)) := by
  constructor
  · intro a b va vb ha hna hb hzb
    rw [eval_binop .div a b, eval_binop .mod a b, ha, hb]
    cases va <;> cases vb <;>
      simp_all [pyDiv, pyMod, operators, toNum?, PyNum.toR, IsZeroV, isNumericV]
  · intro a r
    constructor <;>
    · rw [eval_binop]
      cases ha : eval a with
      | error e => simp
      | ok va =>
        cases va <;>
          simp [pyDiv, pyMod, operators, toNum?, PyNum.toR, eval_const, litValue]

/-- Witness for C3 at `10 / 0` and `10 % 0`. -/
theorem c3_witness :
    (∃ m, eval (.binop .div (.const (.intL 10)) (.const (.intL 0))) =
      .error (.divisionByZero m)) ∧
    (∃ m, eval (.binop .mod (.const (.intL 10)) (.const (.intL 0))) =
      .error (.divisionByZero m)) :=
  c3_division_by_zero.1 (.const (.intL 10)) (.const (.intL 0)) (.int 10) (.int 0)
    rfl rfl rfl rfl

/-- C6: the Call branch first requires the evaluated callee to be callable —
anything else fails with `Not a function: ...` before the arguments are even
evaluated; for a whitelisted callable the evaluated argument list is passed to
the function, whose rejections (wrong arity, domain errors such as
`sqrt` of a negative number) surface as the function's own error. -/
theorem c6_call_semantics :
    (∀ (f : Expr) (args : List Expr) (v : Value), eval f = .ok v →
      callableV v = false →
      eval (.call f args) = .error (.notCallable (pyStr v))) ∧
    (∀ (f : Expr) (args : List Expr) (b : Builtin) (vs : List Value),
      eval f = .ok (.builtin b) → mapE eval args = .ok vs →
      eval (.call f args) = applyBuiltin b vs) ∧
    (∀ r : ℝ, r < 0 →
      applyBuiltin .sqrt [.float r] = .error (.arityOrDomain "math domain error")) ∧
    applyBuiltin .sqrt [] =
      .error (.arityOrDomain "math.sqrt() takes exactly one argument (0 given)") := by
  refine ⟨?_, ?_, ?_, rfl⟩
  · intro f args v hf hv
    rw [eval_call, hf]
    cases v <;> simp_all [callableV]
  · intro f args b vs hf hargs
    rw [eval_call, hf, hargs]
  · intro r hr
    simp [applyBuiltin, pySqrt, toNum?, PyNum.toR, if_pos hr]

/-- Witness for C6: `5(...)` is not callable, `sqrt(16)` applies the builtin,
and `sqrt(-1.0)` is a domain error. -/
theorem c6_witness :
    eval (.call (.const (.intL 5)) []) = .error (.notCallable (pyStr (.int 5))) ∧
    eval (.call (.name "sqrt") [.const (.intL 16)]) = applyBuiltin .sqrt [.int 16] ∧
    applyBuiltin .sqrt [.float (-1)] = .error (.arityOrDomain "math domain error") :=
  ⟨c6_call_semantics.1 _ [] (.int 5) rfl rfl,
   c6_call_semantics.2.1 _ _ .sqrt [.int 16] rfl rfl,
   c6_call_semantics.2.2.1 (-1) (by norm_num)⟩

end Calculator

namespace Calculator

/-- Reduce `evalString` through a successful parse. -/
lemma evalString_ok_parse {s : String} {t : Expr} (h : parse s = .ok t) :
    evalString s = eval t := by
  unfold evalString
  rw [h]

/-- C8: the four concrete scenarios of the specification: `"2 + 3 * 4"`
evaluates to the int 14, `"sqrt(16)"` to the float 4, `"sin(pi/2)"` to the
float 1 (exactly, in the idealised real semantics of floats), and
`"max(5, 10, 3)"` to the int 10 — and the tool layer formats each as the
corresponding result string. -/
theorem c8_concrete_scenarios :
    evalString "2 + 3 * 4" = .ok (.int 14) ∧
    evalString "sqrt(16)" = .ok (.float 4) ∧
    evalString "sin(pi/2)" = .ok (.float 1) ∧
    evalString "max(5, 10, 3)" = .ok (.int 10) ∧
    execute "2 + 3 * 4" = "2 + 3 * 4 = 14" ∧
    execute "sqrt(16)" = "sqrt(16) = 4" ∧
    execute "sin(pi/2)" = "sin(pi/2) = 1" ∧
    execute "max(5, 10, 3)" = "max(5, 10, 3) = 10" := by
  have hsqrt : evalString "sqrt(16)" = .ok (.float 4) := by
    have h1 : eval (.name "sqrt") = .ok (.builtin .sqrt) := rfl
    have h2 : mapE eval [.const (.intL 16)] = .ok [.int 16] := rfl
    rw [evalString_ok_parse (s := "sqrt(16)")
        (t := .call (.name "sqrt") [.const (.intL 16)]) rfl, eval_call, h1, h2]
    show applyBuiltin .sqrt [.int 16] = .ok (.float 4)
    simp only [applyBuiltin, pySqrt, toNum?, PyNum.toR]
    rw [if_neg (by norm_num : ¬(((16 : ℤ) : ℝ) < 0))]
    have : Real.sqrt ((16 : ℤ) : ℝ) = 4 := by
      rw [show ((16 : ℤ) : ℝ) = (4 : ℝ) ^ 2 by norm_num]
      exact Real.sqrt_sq (by norm_num)
    rw [this]
  have hsin : evalString "sin(pi/2)" = .ok (.float 1) := by
    have h1 : eval (.name "sin") = .ok (.builtin .sin) := rfl
    have hpi : eval (.name "pi") = .ok (.float Real.pi) := rfl
    have h2 : eval (.const (.intL 2)) = .ok (.int 2) := rfl
    have hdiv : eval (.binop .div (.name "pi") (.const (.intL 2))) =
        .ok (.float (Real.pi / 2)) := by
      rw [eval_binop, hpi, h2]
      show pyDiv (.float Real.pi) (.int 2) = _
      simp only [pyDiv, toNum?, PyNum.toR]
      rw [if_neg (by norm_num : ¬(((2 : ℤ) : ℝ) = 0))]
      norm_num
    have h3 : mapE eval [.binop .div (.name "pi") (.const (.intL 2))] =
        .ok [.float (Real.pi / 2)] := by
      simp [mapE, hdiv]
    rw [evalString_ok_parse (s := "sin(pi/2)")
        (t := .call (.name "sin") [.binop .div (.name "pi") (.const (.intL 2))]) rfl,
      eval_call, h1, h3]
    show applyBuiltin .sin [.float (Real.pi / 2)] = .ok (.float 1)
    simp only [applyBuiltin, pyMath1, toNum?, PyNum.toR]
    rw [Real.sin_pi_div_two]
  have hfmt4 : formatVal (.float 4) = "4" := by
    have hw : IsWholeR (4 : ℝ) := by
      rw [IsWholeR, show (4 : ℝ) = ((4 : ℤ) : ℝ) by norm_num, Int.floor_intCast]
    show formatFloat 4 = "4"
    unfold formatFloat
    rw [if_pos hw, show (4 : ℝ) = ((4 : ℤ) : ℝ) by norm_num, Int.floor_intCast]
    rfl
  have hfmt1 : formatVal (.float 1) = "1" := by
    have hw : IsWholeR (1 : ℝ) := by
      rw [IsWholeR, show (1 : ℝ) = ((1 : ℤ) : ℝ) by norm_num, Int.floor_intCast]
    show formatFloat 1 = "1"
    unfold formatFloat
    rw [if_pos hw, show (1 : ℝ) = ((1 : ℤ) : ℝ) by norm_num, Int.floor_intCast]
    rfl
  refine ⟨rfl, hsqrt, hsin, rfl, rfl, ?_, ?_, rfl⟩
  · simp only [execute, evaluate, hsqrt, hfmt4]
    rfl
  · simp only [execute, evaluate, hsin, hfmt1]
    rfl

end Calculator

namespace Calculator

/-- `roundEven` is at least the floor. -/
lemma le_roundEven (r : ℝ) : ⌊r⌋ ≤ roundEven r := by
  unfold roundEven
  split_ifs <;> omega

/-- `roundEven` is at most the floor plus one. -/
lemma roundEven_le (r : ℝ) : roundEven r ≤ ⌊r⌋ + 1 := by
  unfold roundEven
  split_ifs <;> omega

/-- Zero is whole, so a non-whole real is nonzero. -/
lemma ne_zero_of_not_whole {r : ℝ} (h : ¬ IsWholeR r) : r ≠ 0 := by
  intro h0
  exact h (by simp [IsWholeR, h0])

/-- The scaled magnitude `|r| * 10 ^ (9 - sigExp r)` lies in `[10^9, 10^10)`. -/
lemma scaled_bounds (r : ℝ) (hr : r ≠ 0) :
    (10 : ℝ) ^ (9 : ℤ) ≤ |r| * (10 : ℝ) ^ ((9 : ℤ) - sigExp r) ∧
    |r| * (10 : ℝ) ^ ((9 : ℤ) - sigExp r) < (10 : ℝ) ^ (10 : ℤ) := by
  have habs : (0 : ℝ) < |r| := abs_pos.mpr hr
  have h1 : (10 : ℝ) ^ (sigExp r) ≤ |r| := by
    have := Int.zpow_log_le_self (b := 10) (R := ℝ) (by norm_num) habs
    simpa [sigExp] using this
  have h2 : |r| < (10 : ℝ) ^ (sigExp r + 1) := by
    have := Int.lt_zpow_succ_log_self (b := 10) (R := ℝ) (by norm_num) |r|
    simpa [sigExp] using this
  have hz : (0 : ℝ) < (10 : ℝ) ^ ((9 : ℤ) - sigExp r) := zpow_pos (by norm_num) _
  constructor
  · calc (10 : ℝ) ^ (9 : ℤ)
        = (10 : ℝ) ^ (sigExp r) * (10 : ℝ) ^ ((9 : ℤ) - sigExp r) := by
          rw [← zpow_add₀ (by norm_num : (10 : ℝ) ≠ 0)]
          congr 1
          ring
      _ ≤ |r| * (10 : ℝ) ^ ((9 : ℤ) - sigExp r) :=
          mul_le_mul_of_nonneg_right h1 hz.le
  · calc |r| * (10 : ℝ) ^ ((9 : ℤ) - sigExp r)
        < (10 : ℝ) ^ (sigExp r + 1) * (10 : ℝ) ^ ((9 : ℤ) - sigExp r) :=
          mul_lt_mul_of_pos_right h2 hz
      _ = (10 : ℝ) ^ (10 : ℤ) := by
          rw [← zpow_add₀ (by norm_num : (10 : ℝ) ≠ 0)]
          congr 1
          ring

/-- The normalised mantissa lies in `[10^9, 10^10)`. -/
lemma mantExp_bounds (r : ℝ) (hr : r ≠ 0) :
    (10 : ℤ) ^ 9 ≤ (mantExp r).1 ∧ (mantExp r).1 < (10 : ℤ) ^ 10 := by
  obtain ⟨hx1, hx2⟩ := scaled_bounds r hr
  set x := |r| * (10 : ℝ) ^ ((9 : ℤ) - sigExp r) with hxdef
  have hcast1 : ((((10 : ℤ) ^ 9) : ℤ) : ℝ) = (10 : ℝ) ^ (9 : ℤ) := by
    push_cast
    norm_num
  have hcast2 : ((((10 : ℤ) ^ 10) : ℤ) : ℝ) = (10 : ℝ) ^ (10 : ℤ) := by
    push_cast
    norm_num
  have hf1 : (10 : ℤ) ^ 9 ≤ ⌊x⌋ := by
    rw [Int.le_floor, hcast1]
    exact hx1
  have hf2 : ⌊x⌋ < (10 : ℤ) ^ 10 := by
    rw [Int.floor_lt, hcast2]
    exact hx2
  have hm1 : (10 : ℤ) ^ 9 ≤ mant0 r := le_trans hf1 (le_roundEven x)
  have hm2 : mant0 r ≤ (10 : ℤ) ^ 10 := le_trans (roundEven_le x) (by omega)
  unfold mantExp
  split_ifs with h
  · refine ⟨le_refl _, by norm_num⟩
  · exact ⟨hm1, lt_of_le_of_ne hm2 h⟩

/-- Each value in `[10^9, 10^10)` has exactly ten decimal digits, so after
stripping trailing zeros at most ten significant digits remain. -/
lemma sig10Digits_length (r : ℝ) (hr : r ≠ 0) : (sig10Digits r).length ≤ 10 := by
  obtain ⟨h1, h2⟩ := mantExp_bounds r hr
  unfold sig10Digits
  refine le_trans (List.dropWhile_sublist _).length_le ?_
  rw [natDigits_eq_digits]
  by_cases hm : (mantExp r).1.toNat = 0
  · simp [hm]
  · have hlt : (mantExp r).1.toNat < 10 ^ 10 := by omega
    have hpow : (10 : ℕ) ^ (Nat.digits 10 (mantExp r).1.toNat).length ≤
        10 * (mantExp r).1.toNat :=
      Nat.base_pow_length_digits_le 10 _ (by norm_num) hm
    have : (10 : ℕ) ^ (Nat.digits 10 (mantExp r).1.toNat).length < 10 ^ 11 := by
      calc (10 : ℕ) ^ (Nat.digits 10 (mantExp r).1.toNat).length
          ≤ 10 * (mantExp r).1.toNat := hpow
        _ < 10 ^ 11 := by omega
    have := (Nat.pow_lt_pow_iff_right (by norm_num : 1 < 10)).mp this
    omega

/-- `Nat.ofDigits` of an all-zero digit list is zero. -/
lemma ofDigits_all_zero {l : List ℕ} (h : ∀ d ∈ l, d = 0) : Nat.ofDigits 10 l = 0 := by
  induction l with
  | nil => simp [Nat.ofDigits]
  | cons a as ih =>
    rw [Nat.ofDigits_cons, h a (by simp), ih (fun d hd => h d (by simp [hd]))]

/-- The stripped significant-digit list is nonempty (the mantissa is nonzero). -/
lemma sig10Digits_ne_nil (r : ℝ) (hr : r ≠ 0) : sig10Digits r ≠ [] := by
  obtain ⟨h1, _⟩ := mantExp_bounds r hr
  unfold sig10Digits
  intro hnil
  have hall := List.dropWhile_eq_nil_iff.mp hnil
  rw [natDigits_eq_digits] at hall
  have : (mantExp r).1.toNat = 0 := by
    have := ofDigits_all_zero (l := Nat.digits 10 (mantExp r).1.toNat)
      (fun d hd => by simpa using hall d hd)
    rwa [Nat.ofDigits_digits] at this
  omega

/-- The head of `dropWhile (· = 0)` is nonzero (or the list is empty). -/
lemma headI_dropWhile_zero (l : List ℕ) :
    l.dropWhile (· = 0) = [] ∨ (l.dropWhile (· = 0)).headI ≠ 0 := by
  induction l with
  | nil => exact Or.inl rfl
  | cons a as ih =>
    by_cases ha : a = 0
    · simpa [List.dropWhile_cons, ha] using ih
    · right
      simp [List.dropWhile_cons, ha]

/-- The lowest-order kept digit is nonzero: trailing zeros are stripped. -/
lemma sig10Digits_headI (r : ℝ) (hr : r ≠ 0) : (sig10Digits r).headI ≠ 0 := by
  rcases headI_dropWhile_zero (natDigits (mantExp r).1.toNat) with h | h
  · exact absurd h (by simpa [sig10Digits] using sig10Digits_ne_nil r hr)
  · simpa [sig10Digits] using h

/-- A digit character is never the dot. -/
lemma dChar_ne_dot {d : ℕ} (hd : d < 10) : dChar d ≠ '.' := by
  interval_cases d <;> decide

/-- The decimal rendering of a natural number contains no dot. -/
lemma natStr_no_dot (n : ℕ) : ∀ c ∈ (natStr n).data, c ≠ '.' := by
  intro c hc
  unfold natStr at hc
  split_ifs at hc with h
  · have h0 : ("0" : String).data = ['0'] := rfl
    rw [h0] at hc
    simp at hc
    subst hc
    decide
  · have h1 : (String.mk ((natDigits n).reverse.map dChar)).data =
        (natDigits n).reverse.map dChar := rfl
    rw [h1, List.mem_map] at hc
    obtain ⟨d, hd, rfl⟩ := hc
    have : d < 10 := by
      rw [natDigits_eq_digits] at hd
      exact Nat.digits_lt_base (by norm_num) (List.mem_reverse.mp hd)
    exact dChar_ne_dot this

/-- The decimal rendering of an integer contains no dot: rendering a
whole-valued float therefore never produces a trailing `.0`. -/
lemma intStr_no_dot (z : ℤ) : ∀ c ∈ (intStr z).data, c ≠ '.' := by
  intro c hc
  unfold intStr at hc
  rw [String.data_append] at hc
  rcases List.mem_append.mp hc with h | h
  · split_ifs at h
    · have h0 : ("-" : String).data = ['-'] := rfl
      rw [h0] at h
      simp at h
      subst h
      decide
    · have h0 : ("" : String).data = [] := rfl
      rw [h0] at h
      simp at h
  · exact natStr_no_dot z.natAbs c h

end Calculator

namespace Calculator

/-- C9: the result formatter renders a whole-valued float as a plain integer
string (which contains no dot, hence no trailing `.0`); every other float is
rendered by the `%.10g` model: at most ten significant digits, with the
trailing zeros stripped (the lowest kept digit is nonzero). -/
theorem c9_float_formatting (r : ℝ) :
    (IsWholeR r → formatFloat r = intStr ⌊r⌋ ∧ ∀ c ∈ (formatFloat r).data, c ≠ '.') ∧
    (¬ IsWholeR r → formatFloat r = sig10 r ∧ (sig10Digits r).length ≤ 10 ∧
      sig10Digits r ≠ [] ∧ (sig10Digits r).headI ≠ 0) := by
  constructor
  · intro h
    have he : formatFloat r = intStr ⌊r⌋ := by
      unfold formatFloat
      rw [if_pos h]
    refine ⟨he, ?_⟩
    rw [he]
    exact intStr_no_dot ⌊r⌋
  · intro h
    have hr : r ≠ 0 := ne_zero_of_not_whole h
    have he : formatFloat r = sig10 r := by
      unfold formatFloat
      rw [if_neg h]
    exact ⟨he, sig10Digits_length r hr, sig10Digits_ne_nil r hr, sig10Digits_headI r hr⟩

/-- Witness for C9 at the whole-valued float `4.0` (the value of `sqrt(16)`). -/
theorem c9_witness :
    formatFloat ((4 : ℤ) : ℝ) = intStr ⌊((4 : ℤ) : ℝ)⌋ ∧
    ∀ c ∈ (formatFloat ((4 : ℤ) : ℝ)).data, c ≠ '.' :=
  (c9_float_formatting _).1 (by simp [IsWholeR])

end Calculator
